import Mathlib

/-!
Shallow embedding of the identity / change-detection engine of the
international_combine_pipline repository: `db_manager.py`
(`DatabaseManager.get_max_docket_number`, `DatabaseManager.assign_document_ids`,
`DatabaseManager.prepare_records`), `db_connect.py`
(`run_query_to_list_of_dicts` success/failure convention) and
`utils/file_helper.py` (`clean_title`).

Python dictionaries become a structure with `Option` fields (a `none` field
models a missing key or a `None` value); Python exceptions (KeyError from a
`item['k']` subscript on a missing key, TypeError from comparing
`datetime.date` with `datetime.min`) become an `Except PyError` result; the
MySQL store behind `run_query_to_list_of_dicts` becomes an explicit list of
rows plus failure flags reproducing the `(success, result)` convention of
`db_connect.py` (an exception yields `(False, None)`).
-/

namespace Pipeline

/-- Python exceptions that the modelled code can raise. -/

inductive PyError where
  | keyError
  | typeError
deriving DecidableEq

/-! ## Decimal digits, Python `f"{n}"`, MySQL `CAST(... AS UNSIGNED)` -/

/-- Digit character for a value below 10 (as produced by Python decimal formatting). -/

def digitChar : Nat → Char
  | 0 => '0' | 1 => '1' | 2 => '2' | 3 => '3' | 4 => '4'
  | 5 => '5' | 6 => '6' | 7 => '7' | 8 => '8' | 9 => '9'
  | _ => '*'

/-- Numeric value of a digit character. -/

def dval (c : Char) : Nat := c.toNat - 48

/-- Decimal digit test (same as Python `str.isdigit` on ASCII). -/

def isDigitC (c : Char) : Bool := 48 ≤ c.toNat && c.toNat ≤ 57

/-- Big-endian decimal digits of `n`; the fuel argument is structural and any
fuel above `n` is enough, so `natToDecString` below is exact. -/

def natToDecCharsAux : Nat → Nat → List Char
  | 0, _ => []
  | fuel + 1, n =>
    if n < 10 then [digitChar n]
    else natToDecCharsAux fuel (n / 10) ++ [digitChar (n % 10)]

/-- Decimal rendering of a natural number, as Python `f"{n}"` renders an int. -/

def natToDecString (n : Nat) : String := ⟨natToDecCharsAux (n + 1) n⟩

/-- Value of a big-endian digit list. -/

def digitsVal (l : List Char) : Nat := l.foldl (fun a c => a * 10 + dval c) 0

/-- Longest leading run of decimal digits. -/

def takeDigits : List Char → List Char
  | [] => []
  | c :: cs => if isDigitC c then c :: takeDigits cs else []

/-- MySQL `CAST(s AS UNSIGNED)`: skip leading spaces, then the value of the
longest leading digit run (`0` when there is none).  Sign handling is not
modelled: docket suffixes produced by this pipeline are unsigned decimals. -/

def castUnsigned (s : String) : Nat :=
  digitsVal (takeDigits (s.data.dropWhile (fun c => c = ' ')))

/-! ## `clean_title` from `utils/file_helper.py` -/

/-- Characters removed by `re.sub` in `clean_title`. -/

def forbiddenChar (c : Char) : Bool :=
  c = '<' || c = '>' || c = ':' || c = '"' || c = '/' || c = '\\' ||
  c = '|' || c = '?' || c = '*'

/-- Whitespace stripped by Python `str.strip()` (ASCII part). -/

def pySpace (c : Char) : Bool :=
  c = ' ' || c = '\t' || c = '\n' || c = '\r' ||
  c = Char.ofNat 11 || c = Char.ofNat 12

/-- Python `str.strip()`. -/

def pyStrip (s : String) : String :=
  ⟨((s.data.dropWhile pySpace).reverse.dropWhile pySpace).reverse⟩

/-- `clean_title` from `utils/file_helper.py`: remove the characters
`<>:"/\|?*` and strip surrounding whitespace. -/

def clean_title (t : String) : String :=
  pyStrip ⟨t.data.filter (fun c => !forbiddenChar c)⟩

/-! ## MD5 (`hashlib.md5(x.encode()).hexdigest()`), over `Nat` mod 2^32 -/

def M32 : Nat := 4294967296

def not32 (x : Nat) : Nat := 4294967295 - x

def rotl32 (x s : Nat) : Nat := ((x <<< s) % M32) ||| (x >>> (32 - s))

/-- UTF-8 encoding of one code point (Python `str.encode()`). -/

def encodeChar (c : Char) : List Nat :=
  let n := c.toNat
  if n < 128 then [n]
  else if n < 2048 then [192 ||| (n >>> 6), 128 ||| (n &&& 63)]
  else if n < 65536 then
    [224 ||| (n >>> 12), 128 ||| ((n >>> 6) &&& 63), 128 ||| (n &&& 63)]
  else
    [240 ||| (n >>> 18), 128 ||| ((n >>> 12) &&& 63),
     128 ||| ((n >>> 6) &&& 63), 128 ||| (n &&& 63)]

def utf8Bytes (s : String) : List Nat :=
  (s.data.map encodeChar).foldr (· ++ ·) []

/-- Little-endian bytes of a 64-bit length. -/

def le64 (n : Nat) : List Nat :=
  (List.range 8).map (fun i => (n >>> (8 * i)) &&& 255)

/-- Little-endian bytes of a 32-bit word. -/

def le32 (n : Nat) : List Nat :=
  (List.range 4).map (fun i => (n >>> (8 * i)) &&& 255)

/-- MD5 padding: `0x80`, zeros to 56 mod 64, then the bit length (little endian). -/

def md5Pad (m : List Nat) : List Nat :=
  let len := m.length
  let z := (120 - ((len + 1) % 64)) % 64
  m ++ [128] ++ List.replicate z 0 ++ le64 ((len * 8) % (2 ^ 64))

/-- Group bytes into little-endian 32-bit words. -/

def bytesToWords : List Nat → List Nat
  | b0 :: b1 :: b2 :: b3 :: rest =>
    (b0 ||| (b1 <<< 8) ||| (b2 <<< 16) ||| (b3 <<< 24)) :: bytesToWords rest
  | _ => []

/-- Split a word list into chunks of 16; fuel-structural so that it reduces. -/

def chunks16Aux : Nat → List Nat → List (List Nat)
  | 0, _ => []
  | _, [] => []
  | fuel + 1, w => w.take 16 :: chunks16Aux fuel (w.drop 16)

def chunks16 (w : List Nat) : List (List Nat) := chunks16Aux w.length w

/-- The 64 MD5 round constants (RFC 1321). -/

def md5K : List Nat :=
  [0xd76aa478, 0xe8c7b756, 0x242070db, 0xc1bdceee,
   0xf57c0faf, 0x4787c62a, 0xa8304613, 0xfd469501,
   0x698098d8, 0x8b44f7af, 0xffff5bb1, 0x895cd7be,
   0x6b901122, 0xfd987193, 0xa679438e, 0x49b40821,
   0xf61e2562, 0xc040b340, 0x265e5a51, 0xe9b6c7aa,
   0xd62f105d, 0x02441453, 0xd8a1e681, 0xe7d3fbc8,
   0x21e1cde6, 0xc33707d6, 0xf4d50d87, 0x455a14ed,
   0xa9e3e905, 0xfcefa3f8, 0x676f02d9, 0x8d2a4c8a,
   0xfffa3942, 0x8771f681, 0x6d9d6122, 0xfde5380c,
   0xa4beea44, 0x4bdecfa9, 0xf6bb4b60, 0xbebfbc70,
   0x289b7ec6, 0xeaa127fa, 0xd4ef3085, 0x04881d05,
   0xd9d4d039, 0xe6db99e5, 0x1fa27cf8, 0xc4ac5665,
   0xf4292244, 0x432aff97, 0xab9423a7, 0xfc93a039,
   0x655b59c3, 0x8f0ccc92, 0xffeff47d, 0x85845dd1,
   0x6fa87e4f, 0xfe2ce6e0, 0xa3014314, 0x4e0811a1,
   0xf7537e82, 0xbd3af235, 0x2ad7d2bb, 0xeb86d391]

def md5F (i b c d : Nat) : Nat :=
  if i < 16 then (b &&& c) ||| (not32 b &&& d)
  else if i < 32 then (d &&& b) ||| (not32 d &&& c)
  else if i < 48 then b ^^^ c ^^^ d
  else c ^^^ (b ||| not32 d)

def md5G (i : Nat) : Nat :=
  if i < 16 then i
  else if i < 32 then (5 * i + 1) % 16
  else if i < 48 then (3 * i + 5) % 16
  else (7 * i) % 16

def md5S (i : Nat) : Nat :=
  (if i < 16 then [7, 12, 17, 22]
   else if i < 32 then [5, 9, 14, 20]
   else if i < 48 then [4, 11, 16, 23]
   else [6, 10, 15, 21]).getD (i % 4) 0

def md5Round (m : List Nat) (st : Nat × Nat × Nat × Nat) (i : Nat) :
    Nat × Nat × Nat × Nat :=
  let (a, b, c, d) := st
  let f := (md5F i b c d + a + md5K.getD i 0 + m.getD (md5G i) 0) % M32
  (d, (b + rotl32 f (md5S i)) % M32, b, c)

def md5Chunk (st : Nat × Nat × Nat × Nat) (m : List Nat) :
    Nat × Nat × Nat × Nat :=
  let (a0, b0, c0, d0) := st
  let (a, b, c, d) := (List.range 64).foldl (md5Round m) st
  ((a0 + a) % M32, (b0 + b) % M32, (c0 + c) % M32, (d0 + d) % M32)

def md5Init : Nat × Nat × Nat × Nat :=
  (0x67452301, 0xefcdab89, 0x98badcfe, 0x10325476)

def hexChar : Nat → Char
  | 0 => '0' | 1 => '1' | 2 => '2' | 3 => '3' | 4 => '4'
  | 5 => '5' | 6 => '6' | 7 => '7' | 8 => '8' | 9 => '9'
  | 10 => 'a' | 11 => 'b' | 12 => 'c' | 13 => 'd' | 14 => 'e'
  | 15 => 'f' | _ => '*'

def byteHex (b : Nat) : List Char := [hexChar (b / 16), hexChar (b % 16)]

/-- `hashlib.md5(s.encode()).hexdigest()`. -/

def md5Hex (s : String) : String :=
  let bytes := utf8Bytes s
  let st := (chunks16 (bytesToWords (md5Pad bytes))).foldl md5Chunk md5Init
  ⟨((le32 st.1 ++ le32 st.2.1 ++ le32 st.2.2.1 ++ le32 st.2.2.2).map byteHex).foldr
      (· ++ ·) []⟩

/-! ## Calendar dates: `datetime.strptime(s, "%Y-%m-%d").date()` and `strftime` -/

/-- A Python `datetime.date` value. -/

structure PyDate where
  year : Nat
  month : Nat
  day : Nat
deriving DecidableEq

/-- Chronological sort key; for valid calendar dates it orders exactly as
`datetime.date` comparison does. -/

def PyDate.key (d : PyDate) : Nat := d.year * 10000 + d.month * 100 + d.day

def isLeap (y : Nat) : Bool := (y % 4 = 0 && y % 100 ≠ 0) || y % 400 = 0

def daysInMonth (y m : Nat) : Nat :=
  if m = 2 then (if isLeap y then 29 else 28)
  else if m = 4 || m = 6 || m = 9 || m = 11 then 30
  else 31

/-- Split a character list on `'-'` (models the field structure `strptime`
imposes on the pattern `"%Y-%m-%d"`). -/

def splitDashAux : List Char → List Char → List (List Char)
  | [], cur => [cur.reverse]
  | c :: cs, cur =>
    if c = '-' then cur.reverse :: splitDashAux cs []
    else splitDashAux cs (c :: cur)

def allDigits (l : List Char) : Bool := l.all isDigitC

/-- `datetime.strptime(s, "%Y-%m-%d").date()` wrapped in try/except:
three dash-separated all-digit fields (year 1-4 digits, month and day 1-2
digits), validated as a calendar date; anything else is `none`. -/

def parseDate (s : String) : Option PyDate :=
  match splitDashAux s.data [] with
  | [ys, ms, ds] =>
    if allDigits ys && allDigits ms && allDigits ds &&
       decide (1 ≤ ys.length) && decide (ys.length ≤ 4) &&
       decide (1 ≤ ms.length) && decide (ms.length ≤ 2) &&
       decide (1 ≤ ds.length) && decide (ds.length ≤ 2) then
      let y := digitsVal ys
      let m := digitsVal ms
      let d := digitsVal ds
      if 1 ≤ y && 1 ≤ m && m ≤ 12 && 1 ≤ d && d ≤ daysInMonth y m then
        some ⟨y, m, d⟩
      else none
    else none
  | _ => none

def padTo (w : Nat) (n : Nat) : List Char :=
  let ds := natToDecCharsAux (n + 1) n
  List.replicate (w - ds.length) '0' ++ ds

/-- `d.strftime('%Y-%m-%d')` (zero-padded). -/

def fmtDate (d : PyDate) : String :=
  ⟨padTo 4 d.year ++ '-' :: padTo 2 d.month ++ '-' :: padTo 2 d.day⟩

/-! ## Data model: items, stored rows, the store, configuration -/

/-- One scraped document descriptor, the Python dict flowing through
`assign_document_ids` and `prepare_records`.  A `none` field models a
missing dictionary key or a `None` value. -/

structure Item where
  title : Option String := none
  url : Option String := none
  atom_id : Option String := none
  publish_date : Option String := none
  modify_date : Option String := none
  abstract : Option String := none
  doc_format : Option String := none
  aws_key : Option String := none
  s3_link_url : Option String := none
  create_date : Option String := none
  publish_date_obj : Option PyDate := none
  doc_hash : Option String := none
  docket_id : Option String := none
  doc_id : Option String := none
  is_new : Option Bool := none
  needs_update : Option Bool := none
deriving DecidableEq

/-- A persisted row of the documents table, restricted to the columns the
engine touches. -/

structure StoredRow where
  docket_id : String
  doc_id : String
  publish_date : Option String
  modifyDate : Option String
  doc_hash : String
  agency_id : Nat
deriving DecidableEq

/-- The relational store together with a failure model for
`run_query_to_list_of_dicts`: that helper returns `(False, None)` when the
query raises and `(True, rows)` otherwise (`db_connect.py`).
`lookupFails h` says the fingerprint-lookup query for hash `h` raises;
`maxFails` says the max-docket query raises. -/

structure DB where
  store : List StoredRow
  lookupFails : String → Bool
  maxFails : Bool

/-- Per-country configuration consumed by `DatabaseManager`.
`docketPre` models the `docket_prefix` entry. -/

structure CountryConfig where
  docketPre : String
  agency_id : Nat
  document_type : String := ""
  program_id : String := ""
  s3_country_folder : String := ""
deriving DecidableEq

/-- `Config.AWS_BUCKET` (an environment constant). -/

def awsBucket : String := "AWS_BUCKET"

/-! ## `get_max_docket_number` -/

def startsWithL : List Char → List Char → Bool
  | _, [] => true
  | [], _ :: _ => false
  | a :: as, b :: bs => a = b && startsWithL as bs

/-- `docket_id LIKE :prefix_pattern AND agency_id = :agency_id` with pattern
`f"{prefix}-%"`. -/

def likeMatch (cfg : CountryConfig) (r : StoredRow) : Bool :=
  startsWithL r.docket_id.data (cfg.docketPre ++ "-").data &&
  r.agency_id = cfg.agency_id

/-- SQL `SUBSTRING(s, pos)` (1-indexed). -/

def sqlSubstringFrom (s : String) (pos : Nat) : String :=
  ⟨s.data.drop (pos - 1)⟩

/-- Numeric suffix the SQL computes for one row:
`CAST(SUBSTRING(docket_id, prefix_len + 2) AS UNSIGNED)`. -/

def rowSuffixNum (cfg : CountryConfig) (r : StoredRow) : Nat :=
  castUnsigned (sqlSubstringFrom r.docket_id (cfg.docketPre.length + 2))

/-- `DatabaseManager.get_max_docket_number`: the SQL `MAX` over matching rows;
the Python wrapper returns `0` when the query fails, when no row matches
(SQL `MAX` is `NULL`) or when the maximum itself is `0` (falsy). -/

def get_max_docket_number (db : DB) (cfg : CountryConfig) : Nat :=
  if db.maxFails then 0
  else ((db.store.filter (likeMatch cfg)).map (rowSuffixNum cfg)).foldr max 0

/-! ## `assign_document_ids`: normalization pass (first loop) -/

/-- `publish_date` parsing: `strptime` under try/except for strings, `None`
propagated unchanged. -/

def pubObjOf (it : Item) : Option PyDate :=
  match it.publish_date with
  | some s => parseDate s
  | none => none

/-- `mod = item.get('modify_date'); if not mod: mod = pub` (the empty string
is falsy). -/

def mod0Of (it : Item) : Option String :=
  match it.modify_date with
  | some m => if m = "" then it.publish_date else some m
  | none => it.publish_date

/-- Modify-date object: parse failures fall back to the publish-date object
(the `except: mod_obj = pub_obj` branch). -/

def modObjOf (it : Item) : Option PyDate :=
  match mod0Of it with
  | some s =>
    match parseDate s with
    | some d => some d
    | none => pubObjOf it
  | none => none

/-- `item.get('atom_id') or f"{clean_title(item['title'])}{item['url']}"`:
an absent or empty origin token falls back to title + url, where the
subscripts raise `KeyError` on a missing key. -/

def hashInputOf (it : Item) : Except PyError String :=
  let fb : Except PyError String :=
    match it.title, it.url with
    | some t, some u => .ok (clean_title t ++ u)
    | _, _ => .error .keyError
  match it.atom_id with
  | some s => if s = "" then fb else .ok s
  | none => fb

/-- One iteration of the first loop of `assign_document_ids`: set
`publish_date_obj`, overwrite `modify_date` with its normalized rendering,
and set `doc_hash`. -/

def normalizeItem (it : Item) : Except PyError Item :=
  match hashInputOf it with
  | .error e => .error e
  | .ok hi =>
    .ok { it with
          publish_date_obj := pubObjOf it,
          modify_date := (modObjOf it).map fmtDate,
          doc_hash := some (md5Hex hi) }

def normalizeAll : List Item → Except PyError (List Item)
  | [] => .ok []
  | it :: rest => do
    let x ← normalizeItem it
    let xs ← normalizeAll rest
    .ok (x :: xs)

/-! ## `assign_document_ids`: classification (second loop) -/

/-- The local `_dt` helper: parse a stored or new date string, `None` on
falsy input or parse failure. -/

def dtOrNone (x : Option String) : Option PyDate :=
  match x with
  | some s => if s = "" then none else parseDate s
  | none => none

/-- The `needs_update` decision of lines 110-118 of `db_manager.py`:
CASE 1 (some new date present, date truthiness = presence) flags a change
when either parsed pair differs; CASE 2 (no new dates) always flags. -/

def needsUpdateFlag (old : StoredRow) (it : Item) : Bool :=
  if (dtOrNone it.publish_date).isSome || (dtOrNone it.modify_date).isSome then
    decide (dtOrNone old.publish_date ≠ dtOrNone it.publish_date) ||
    decide (dtOrNone old.modifyDate ≠ dtOrNone it.modify_date)
  else true

/-- Lines 92-126 of `db_manager.py`: compare parsed dates of the stored row
and the descriptor, flag `needs_update`, and copy the stored identifiers. -/

def classifyExisting (old : StoredRow) (it : Item) : Item :=
  { it with docket_id := some old.docket_id, doc_id := some old.doc_id,
            is_new := some false, needs_update := some (needsUpdateFlag old it) }

/-- Rows returned by the fingerprint-lookup query for hash `h`. -/

def matchRows (db : DB) (h : String) : List StoredRow :=
  db.store.filter (fun r => r.doc_hash = h)

/-- The second loop: per item, run the lookup; `if not success or not result`
the item goes to `new_items`, otherwise it is classified against the first
returned row.  Returns `(existing_items, new_items)` in encounter order. -/

def classifyAll (db : DB) : List Item → Except PyError (List Item × List Item)
  | [] => .ok ([], [])
  | it :: rest =>
    match it.doc_hash with
    | none => .error .keyError
    | some h =>
      let res : Option (List StoredRow) :=
        if db.lookupFails h then none else some (matchRows db h)
      match res with
      | some (old :: _) => do
        let (ex, nw) ← classifyAll db rest
        .ok (classifyExisting old it :: ex, nw)
      | _ => do
        let (ex, nw) ← classifyAll db rest
        .ok (ex, it :: nw)

/-! ## `assign_document_ids`: sorting and docket assignment -/

/-- Strict comparison of sort keys (`publish_date_obj or datetime.min`),
only ever used when the keys are of one kind. -/

def pubKeyLt (a b : Item) : Bool :=
  match a.publish_date_obj, b.publish_date_obj with
  | some x, some y => x.key < y.key
  | _, _ => false

/-- Stable insertion keeping an element after equal keys (together with the
left fold below this reproduces any stable sort, hence Python timsort). -/

def insertTail (a : Item) : List Item → List Item
  | [] => [a]
  | b :: bs => if pubKeyLt a b then a :: b :: bs else b :: insertTail a bs

def stableSortItems (l : List Item) : List Item :=
  l.foldl (fun acc a => insertTail a acc) []

/-- `new_items.sort(key=lambda x: x.get('publish_date_obj') or datetime.min)`.
When the keys mix a `datetime.date` with `datetime.min` (a `datetime`),
Python raises `TypeError` on the first mixed comparison, and sorting a list
holding both kinds always performs one. -/

def sortNewItems (l : List Item) : Except PyError (List Item) :=
  if (l.any fun i => i.publish_date_obj.isSome) &&
     (l.any fun i => i.publish_date_obj.isNone) then .error .typeError
  else .ok (stableSortItems l)

/-- The assignment loop: `f"{prefix}-{next_docket_num}"`, `doc_id` suffixed
`-1`, incrementing per new item. -/

def assignNew (pre : String) : Nat → List Item → List Item
  | _, [] => []
  | n, it :: rest =>
    let did := pre ++ "-" ++ natToDecString n
    { it with docket_id := some did, doc_id := some (did ++ "-1"),
              is_new := some true, needs_update := some false }
      :: assignNew pre (n + 1) rest

/-- `DatabaseManager.assign_document_ids`. -/

def assign_document_ids (db : DB) (cfg : CountryConfig) (items : List Item) :
    Except PyError (List Item) :=
  if items = [] then .ok items
  else do
    let norm ← normalizeAll items
    if norm = [] then .ok []
    else
      let next_docket_num := get_max_docket_number db cfg + 1
      let (ex, nw) ← classifyAll db norm
      let sorted ← sortNewItems nw
      .ok (ex ++ assignNew cfg.docketPre next_docket_num sorted)

/-! ## `prepare_records` -/

/-- One row as `prepare_records` shapes it for the sink. -/

structure DBRecord where
  docket_id : Option String
  doc_id : String
  doc_hash : String
  document_type : String
  agency_id : Nat
  reference : String
  title : String
  url : String
  abstract : String
  program_id : String
  publish_date : Option String
  modifyDate : Option String
  effective_date : Option String
  doc_format : String
  s3_country_folder : String
  aws_bucket : String
  aws_key : String
  s3_link_url : String
  in_elastic : Option String
  create_date : Option String
  modified_date : String
deriving DecidableEq

/-- Python truthiness of `item.get(k)` for the boolean flags. -/

def truthy (o : Option Bool) : Bool := o.getD false

def taggedB (i : Item) : Bool := truthy i.is_new || truthy i.needs_update

/-- `DatabaseManager.prepare_records`; `now` stands for the `datetime.now()`
value taken once at entry.  An unchanged item is skipped (its `doc_id`
subscript in the log line still raises on a missing key); other items are
mapped to a record, with `KeyError` on any missing required key. -/

def prepare_records (cfg : CountryConfig) (now : String) :
    List Item → Except PyError (List DBRecord)
  | [] => .ok []
  | it :: rest =>
    if !taggedB it then
      match it.doc_id with
      | none => .error .keyError
      | some _ => prepare_records cfg now rest
    else
      match it.doc_id, it.doc_hash, it.title, it.url, it.doc_format,
            it.aws_key, it.s3_link_url with
      | some did, some dh, some t, some u, some fmt, some ak, some s3 => do
        let rs ← prepare_records cfg now rest
        .ok ({ docket_id := it.docket_id
               doc_id := did
               doc_hash := dh
               document_type := cfg.document_type
               agency_id := cfg.agency_id
               reference := ""
               title := clean_title t
               url := u
               abstract := ⟨(it.abstract.getD "").data.take 1000⟩
               program_id := cfg.program_id
               publish_date := it.publish_date
               modifyDate := it.modify_date
               effective_date := none
               doc_format := fmt
               s3_country_folder := cfg.s3_country_folder
               aws_bucket := awsBucket
               aws_key := ak
               s3_link_url := s3
               in_elastic := none
               create_date := if truthy it.is_new then some now else it.create_date
               modified_date := now } :: rs)
      | _, _, _, _, _, _, _ => .error .keyError

/-- The new items of a classified batch (`is_new` set to true). -/

def newItemsOf (out : List Item) : List Item :=
  out.filter (fun i => i.is_new = some true)

/-- What the docket-numbering claim asserts of a successful
`assign_document_ids` result: descriptors whose fingerprint matches no
stored row come out flagged new; the new items carry exactly the docket
identifiers `prefix-(M+1), prefix-(M+2), ...` where `M` is the allocator
value; these identifiers are pairwise distinct; and every one of them is
numerically above the suffix the allocator scan computed for any stored
row of the same prefix and agency. -/

def docketAssignmentSpec (db : DB) (cfg : CountryConfig) (out : List Item) : Prop :=
  (∀ i ∈ out, (∀ r ∈ db.store, some r.doc_hash ≠ i.doc_hash) → i.is_new = some true) ∧
  (newItemsOf out).map Item.docket_id =
    (List.range' (get_max_docket_number db cfg + 1) (newItemsOf out).length).map
      (fun k => some (cfg.docketPre ++ "-" ++ natToDecString k)) ∧
  ((newItemsOf out).map Item.docket_id).Nodup ∧
  (∀ r ∈ db.store, likeMatch cfg r = true →
    ∀ k ∈ List.range' (get_max_docket_number db cfg + 1) (newItemsOf out).length,
      rowSuffixNum cfg r < k)

def c2DB : DB := ⟨[⟨"BE-MD-3", "BE-MD-3-1", some "2024-01-01", some "2024-01-01", "h0", 7⟩],
  fun _ => false, false⟩

def c2Cfg : CountryConfig := { docketPre := "BE-MD", agency_id := 7 }

def c2Items : List Item :=
  [{ atom_id := some "a", publish_date := some "2024-03-01" },
   { atom_id := some "b", publish_date := some "2024-01-01" },
   { atom_id := some "c", publish_date := some "2024-02-01" }]

def c2Out : List Item := (assign_document_ids c2DB c2Cfg c2Items).toOption.getD []

/-- Shared fixture: a Belgium-style configuration. -/

def bCfg : CountryConfig := { docketPre := "BE-MD", agency_id := 7 }

/-- Shared fixture: an empty store with no query failures. -/

def emptyDB : DB := ⟨[], fun _ => false, false⟩

def c3DB : DB :=
  ⟨[⟨"BE-MD-3", "BE-MD-3-1", none, some "2024-05-05", md5Hex "tok", 7⟩],
    fun _ => false, false⟩

def c3Item : Item := { atom_id := some "tok", modify_date := some "2024-05-05" }

def c1DB : DB :=
  ⟨[⟨"BE-MD-3", "BE-MD-3-1", some "2024-01-01", some "2024-01-01", md5Hex "a", 7⟩],
    fun _ => true, false⟩

/-! ## C5: the docket allocator -/

def suffixChars (cfg : CountryConfig) (r : StoredRow) : List Char :=
  (sqlSubstringFrom r.docket_id (cfg.docketPre.length + 2)).data

/-- Modelled from the spec: "the maximum numeric suffix among existing docket
identifiers matching `{prefix}-*`", where an identifier whose suffix is not
a (nonempty) decimal numeral has no numeric suffix and is excluded from the
maximum (spec 4.3), and the result is 0 when no contributing identifiers
exist. -/

def specMaxNumericSuffix (db : DB) (cfg : CountryConfig) : Nat :=
  ((db.store.filter (fun r => likeMatch cfg r && allDigits (suffixChars cfg r) &&
      decide (suffixChars cfg r ≠ []))).map
    (fun r => digitsVal (suffixChars cfg r))).foldr max 0

def c5DB : DB :=
  ⟨[⟨"BE-MD-5", "a", none, none, "h1", 7⟩,
    ⟨"BE-MD-12abc", "b", none, none, "h2", 7⟩], fun _ => false, false⟩

def c5wDB : DB :=
  ⟨[⟨"BE-MD-1", "a", none, none, "h1", 7⟩,
    ⟨"BE-MD-3", "b", none, none, "h2", 7⟩,
    ⟨"BE-MD-7", "c", none, none, "h3", 7⟩], fun _ => false, false⟩

def c6It1 : Item :=
  { atom_id := some "https://x/doc.pdf", title := some "Guidance v1",
    url := some "https://x" }

def c6It2 : Item :=
  { atom_id := some "https://x/doc.pdf", title := some "Guidance v1 (revised)",
    url := some "https://x" }

def c6O1 : Item := (normalizeItem c6It1).toOption.getD c6It1

def c6O2 : Item := (normalizeItem c6It2).toOption.getD c6It2

/-! ## C8: title normalization and the fingerprint fallback -/

/-- Words of a character list, splitting on Python whitespace. -/

def wordsAux : List Char → List Char → List (List Char)
  | [], cur => if cur = [] then [] else [cur.reverse]
  | c :: cs, cur =>
    if pySpace c then
      (if cur = [] then wordsAux cs [] else cur.reverse :: wordsAux cs [])
    else wordsAux cs (c :: cur)

/-- Modelled from the spec: "normalization strips disallowed filesystem
characters and collapses whitespace" — remove the forbidden characters,
then collapse every whitespace run to a single space (trimming the ends). -/

def specNormalizeTitle (t : String) : String :=
  ⟨List.intercalate [' '] (wordsAux (t.data.filter (fun c => !forbiddenChar c)) [])⟩

/-- Correspondence between a prepared record and the classified item it came
from. -/

def recordMatches (r : DBRecord) (i : Item) : Prop :=
  i.doc_id = some r.doc_id ∧ i.doc_hash = some r.doc_hash ∧
  (∃ s, i.title = some s ∧ r.title = clean_title s) ∧
  i.url = some r.url ∧ r.publish_date = i.publish_date ∧
  r.modifyDate = i.modify_date

def c8It : Item := { title := some " My  Doc? ", url := some "u" }

/-! ## C9: malformed and absent dates -/

/-- Forget the raw `publish_date` string of an item (the one field whose raw
text is retained after normalization). -/

def eraseRawPub (it : Item) : Item := { it with publish_date := none }

def c9It : Item := { atom_id := some "x" }

def c10i1 : Item :=
  { title := some "A", url := some "u1", doc_id := some "BE-MD-4-1",
    docket_id := some "BE-MD-4", doc_hash := some "h1", doc_format := some "PDF",
    aws_key := some "k1", s3_link_url := some "s1",
    is_new := some true, needs_update := some false }

def c10i2 : Item :=
  { doc_id := some "BE-MD-2-1", is_new := some false, needs_update := some false }

def c10i3 : Item :=
  { title := some "B", url := some "u2", doc_id := some "BE-MD-5-1",
    docket_id := some "BE-MD-5", doc_hash := some "h2", doc_format := some "PDF",
    aws_key := some "k2", s3_link_url := some "s2",
    is_new := some true, needs_update := some false }

def c10recs : List DBRecord :=
  (prepare_records bCfg "2026-10-12" [c10i1, c10i2, c10i3]).toOption.getD []

/-! ## Helper lemmas -/

theorem dval_digitChar {k : Nat} (h : k < 10) : dval (digitChar k) = k := by
  interval_cases k <;> rfl

theorem isDigitC_digitChar {k : Nat} (h : k < 10) : isDigitC (digitChar k) = true := by
  interval_cases k <;> rfl

theorem natToDecCharsAux_all_digits :
    ∀ fuel n, n < fuel → allDigits (natToDecCharsAux fuel n) = true := by
  intro fuel
  induction fuel with
  | zero => intro n h; exact absurd h (Nat.not_lt_zero n)
  | succ f ih =>
    intro n h
    unfold natToDecCharsAux
    by_cases h10 : n < 10
    · simp [h10, allDigits, isDigitC_digitChar h10]
    · have hdiv : n / 10 < f := by
        have h1 : n / 10 < n := Nat.div_lt_self (by omega) (by omega)
        omega
      have hrec := ih (n / 10) hdiv
      simp only [if_neg h10, allDigits, List.all_append] at hrec ⊢
      simp [hrec, allDigits, isDigitC_digitChar (Nat.mod_lt n (by omega))]

theorem digitsVal_foldl :
    ∀ fuel n a, n < fuel →
      (natToDecCharsAux fuel n).foldl (fun x c => x * 10 + dval c) a =
        a * 10 ^ (natToDecCharsAux fuel n).length + n := by
  intro fuel
  induction fuel with
  | zero => intro n a h; exact absurd h (Nat.not_lt_zero n)
  | succ f ih =>
    intro n a h
    by_cases h10 : n < 10
    · simp [natToDecCharsAux, h10, dval_digitChar h10]
    · have hdiv : n / 10 < f := by
        have h1 : n / 10 < n := Nat.div_lt_self (by omega) (by omega)
        omega
      simp only [natToDecCharsAux, if_neg h10, List.foldl_append, List.foldl_cons,
        List.foldl_nil, List.length_append, List.length_cons, List.length_nil]
      rw [ih (n / 10) a hdiv, dval_digitChar (Nat.mod_lt n (by omega))]
      calc (a * 10 ^ (natToDecCharsAux f (n / 10)).length + n / 10) * 10 + n % 10
          = a * 10 ^ (natToDecCharsAux f (n / 10)).length * 10 +
              (n / 10 * 10 + n % 10) := by rw [Nat.add_mul, Nat.add_assoc]
        _ = a * 10 ^ (natToDecCharsAux f (n / 10)).length * 10 + n := by
              rw [Nat.mul_comm (n / 10) 10, Nat.div_add_mod]
        _ = a * 10 ^ ((natToDecCharsAux f (n / 10)).length + (0 + 1)) + n := by
              rw [pow_succ]; ring_nf

theorem digitsVal_natToDec (n : Nat) : digitsVal (natToDecCharsAux (n + 1) n) = n := by
  unfold digitsVal
  rw [digitsVal_foldl (n + 1) n 0 (Nat.lt_succ_self n)]
  simp

theorem takeDigits_all : ∀ l, allDigits l = true → takeDigits l = l := by
  intro l
  induction l with
  | nil => intro _; rfl
  | cons c cs ih =>
    intro h
    simp only [allDigits, List.all_cons, Bool.and_eq_true] at h
    simp [takeDigits, h.1, ih (by simp [allDigits, h.2])]

theorem dropWhile_space_all_digits (l : List Char) (h : allDigits l = true) :
    l.dropWhile (fun c => c = ' ') = l := by
  cases l with
  | nil => rfl
  | cons c cs =>
    simp only [allDigits, List.all_cons, Bool.and_eq_true] at h
    have hc : ¬(c = ' ') := by
      intro hc
      subst hc
      exact absurd h.1 (by decide)
    simp [List.dropWhile, hc]

theorem castUnsigned_natToDecString (n : Nat) :
    castUnsigned (natToDecString n) = n := by
  show digitsVal (takeDigits ((natToDecCharsAux (n + 1) n).dropWhile (fun c => c = ' '))) = n
  rw [dropWhile_space_all_digits _ (natToDecCharsAux_all_digits _ _ (Nat.lt_succ_self n)),
    takeDigits_all _ (natToDecCharsAux_all_digits _ _ (Nat.lt_succ_self n)),
    digitsVal_natToDec]

theorem natToDecString_inj {n m : Nat} (h : natToDecString n = natToDecString m) :
    n = m := by
  have h2 := congrArg castUnsigned h
  rwa [castUnsigned_natToDecString, castUnsigned_natToDecString] at h2

theorem string_data_append (a b : String) : (a ++ b).data = a.data ++ b.data := by
  cases a; cases b; rfl

theorem string_mk_data (s : String) : String.mk s.data = s := by
  cases s; rfl

theorem mkDid_inj (pre : String) {n m : Nat}
    (h : pre ++ "-" ++ natToDecString n = pre ++ "-" ++ natToDecString m) : n = m := by
  have hd := congrArg String.data h
  simp only [string_data_append] at hd
  have h2 := List.append_cancel_left hd
  exact natToDecString_inj (congrArg String.mk h2)

theorem le_foldr_max {l : List Nat} {v : Nat} (h : v ∈ l) : v ≤ l.foldr max 0 := by
  induction l with
  | nil => cases h
  | cons a as ih =>
    rcases List.mem_cons.mp h with h1 | h1
    · subst h1; exact le_max_left _ _
    · exact le_trans (ih h1) (le_max_right _ _)

theorem foldr_max_eq_zero_or_mem (l : List Nat) :
    l.foldr max 0 = 0 ∨ l.foldr max 0 ∈ l := by
  induction l with
  | nil => left; rfl
  | cons a as ih =>
    rcases Nat.le_total a (as.foldr max 0) with h | h
    · rw [List.foldr_cons, max_eq_right h]
      rcases ih with h0 | hm
      · rw [h0]; left; rfl
      · right; exact List.mem_cons_of_mem a hm
    · rw [List.foldr_cons, max_eq_left h]
      right; exact List.mem_cons_self a as

theorem insertTail_length (a : Item) : ∀ l, (insertTail a l).length = l.length + 1 := by
  intro l
  induction l with
  | nil => rfl
  | cons b bs ih =>
    unfold insertTail
    by_cases hlt : pubKeyLt a b
    · simp [hlt]
    · simp [hlt, ih]

theorem stableSortItems_length (l : List Item) :
    (stableSortItems l).length = l.length := by
  suffices h : ∀ acc : List Item,
      (l.foldl (fun acc a => insertTail a acc) acc).length = acc.length + l.length by
    simpa using h []
  induction l with
  | nil => intro acc; simp
  | cons a as ih =>
    intro acc
    simp only [List.foldl_cons, ih, insertTail_length, List.length_cons]
    omega

theorem assignNew_length (pre : String) :
    ∀ n l, (assignNew pre n l).length = l.length := by
  intro n l
  induction l generalizing n with
  | nil => rfl
  | cons it rest ih => simp [assignNew, ih]

theorem assignNew_ids (pre : String) :
    ∀ l n, (assignNew pre n l).map Item.docket_id =
      (List.range' n l.length).map (fun k => some (pre ++ "-" ++ natToDecString k)) := by
  intro l
  induction l with
  | nil => intro n; rfl
  | cons it rest ih =>
    intro n
    simp only [assignNew, List.map_cons, List.length_cons, List.range'_succ, ih]

theorem assignNew_is_new (pre : String) :
    ∀ n l i, i ∈ assignNew pre n l → i.is_new = some true := by
  intro n l
  induction l generalizing n with
  | nil => intro i hi; cases hi
  | cons it rest ih =>
    intro i hi
    rcases List.mem_cons.mp hi with h1 | h1
    · subst h1; rfl
    · exact ih (n + 1) i h1

theorem classifyExisting_is_new (old : StoredRow) (it : Item) :
    (classifyExisting old it).is_new = some false := rfl

theorem classifyExisting_doc_hash (old : StoredRow) (it : Item) :
    (classifyExisting old it).doc_hash = it.doc_hash := rfl

theorem except_bind_ok {ε α β : Type} (a : α) (f : α → Except ε β) :
    (Except.ok (ε := ε) a >>= f) = f a := rfl

theorem except_bind_error {ε α β : Type} (e : ε) (f : α → Except ε β) :
    (Except.error (α := α) e >>= f) = .error e := rfl

theorem classifyAll_ex_spec (db : DB) :
    ∀ items ex nw, classifyAll db items = .ok (ex, nw) →
      ∀ i ∈ ex, i.is_new = some false ∧ ∃ r ∈ db.store, some r.doc_hash = i.doc_hash := by
  intro items
  induction items with
  | nil =>
    intro ex nw h i hi
    have h2 : Except.ok (ε := PyError) (([] : List Item), ([] : List Item)) =
        Except.ok (ex, nw) := h
    injection h2 with h3
    injection h3 with h4 h5
    rw [← h4] at hi
    cases hi
  | cons it rest ih =>
    intro ex nw h i hi
    unfold classifyAll at h
    cases hdh : it.doc_hash with
    | none => rw [hdh] at h; cases h
    | some hh =>
      rw [hdh] at h
      by_cases hlf : db.lookupFails hh
      · simp only [hlf, if_true] at h
        cases hca : classifyAll db rest with
        | error e => rw [hca, except_bind_error] at h; cases h
        | ok p =>
          obtain ⟨ex2, nw2⟩ := p
          rw [hca, except_bind_ok] at h
          simp only [Except.ok.injEq, Prod.mk.injEq] at h
          rw [← h.1] at hi
          exact ih ex2 nw2 hca i hi
      · simp only [hlf, if_false, Bool.false_eq_true] at h
        cases hmr : matchRows db hh with
        | nil =>
          rw [hmr] at h
          cases hca : classifyAll db rest with
          | error e => rw [hca, except_bind_error] at h; cases h
          | ok p =>
            obtain ⟨ex2, nw2⟩ := p
            rw [hca, except_bind_ok] at h
            simp only [Except.ok.injEq, Prod.mk.injEq] at h
            rw [← h.1] at hi
            exact ih ex2 nw2 hca i hi
        | cons old tl =>
          rw [hmr] at h
          cases hca : classifyAll db rest with
          | error e => rw [hca, except_bind_error] at h; cases h
          | ok p =>
            obtain ⟨ex2, nw2⟩ := p
            rw [hca] at h
            simp only [except_bind_ok, Except.ok.injEq, Prod.mk.injEq] at h
            rw [← h.1] at hi
            rcases List.mem_cons.mp hi with h1 | h1
            · subst h1
              refine ⟨classifyExisting_is_new old it, old, ?_, ?_⟩
              · have hm : old ∈ matchRows db hh := by
                  rw [hmr]; exact List.mem_cons_self old tl
                exact (List.mem_filter.mp hm).1
              · have hm : old ∈ matchRows db hh := by
                  rw [hmr]; exact List.mem_cons_self old tl
                have hph := of_decide_eq_true (List.mem_filter.mp hm).2
                rw [classifyExisting_doc_hash, hdh, hph]
            · exact ih ex2 nw2 hca i h1

theorem forall₂_mem_left {α β : Type} {R : α → β → Prop} :
    ∀ {l1 : List α} {l2 : List β}, List.Forall₂ R l1 l2 →
      ∀ {a}, a ∈ l1 → ∃ b ∈ l2, R a b := by
  intro l1 l2 hf
  induction hf with
  | nil => intro a ha; cases ha
  | cons hR hF ih =>
    intro a ha
    rcases List.mem_cons.mp ha with h1 | h1
    · subst h1; exact ⟨_, List.mem_cons_self _ _, hR⟩
    · obtain ⟨b, hb, hRb⟩ := ih h1
      exact ⟨b, List.mem_cons_of_mem _ hb, hRb⟩

theorem assign_structure (db : DB) (cfg : CountryConfig) (items out : List Item)
    (h : assign_document_ids db cfg items = .ok out) :
    out = [] ∨ ∃ norm ex nw sorted,
      normalizeAll items = .ok norm ∧ classifyAll db norm = .ok (ex, nw) ∧
      sortNewItems nw = .ok sorted ∧
      out = ex ++ assignNew cfg.docketPre (get_max_docket_number db cfg + 1) sorted := by
  unfold assign_document_ids at h
  by_cases hi : items = []
  · left
    rw [if_pos hi] at h
    injection h with h2
    rw [← h2, hi]
  · rw [if_neg hi] at h
    cases hn : normalizeAll items with
    | error e => rw [hn, except_bind_error] at h; cases h
    | ok norm =>
      rw [hn, except_bind_ok] at h
      by_cases hn0 : norm = []
      · left
        rw [if_pos hn0] at h
        injection h with h2
        exact h2.symm
      · rw [if_neg hn0] at h
        cases hc : classifyAll db norm with
        | error e => rw [hc, except_bind_error] at h; cases h
        | ok p =>
          obtain ⟨ex, nw⟩ := p
          rw [hc] at h
          simp only [except_bind_ok] at h
          cases hs : sortNewItems nw with
          | error e => rw [hs, except_bind_error] at h; cases h
          | ok sorted =>
            rw [hs] at h
            simp only [except_bind_ok, Except.ok.injEq] at h
            right
            exact ⟨norm, ex, nw, sorted, rfl, hc, hs, h.symm⟩

theorem docketAssignmentSpec_nil (db : DB) (cfg : CountryConfig) :
    docketAssignmentSpec db cfg [] := by
  refine ⟨?_, ?_, ?_, ?_⟩
  · intro i hi; cases hi
  · rfl
  · exact List.nodup_nil
  · intro r _ _ k hk; cases hk

theorem get_max_eq_foldr (db : DB) (cfg : CountryConfig) (hmax : db.maxFails = false) :
    get_max_docket_number db cfg =
      ((db.store.filter (likeMatch cfg)).map (rowSuffixNum cfg)).foldr max 0 := by
  unfold get_max_docket_number
  rw [hmax]
  simp

/-- C2: for every batch accepted by `assign_document_ids` (and a working
allocator query), descriptors whose fingerprint matches no stored row are
classified new, and the new descriptors receive the docket numbers
`max+1, max+2, ...` in order, pairwise distinct and strictly above the
numeric suffix of every stored docket for that prefix and agency — so no
two documents of one source share a docket number, for any prior store
state (including the state left by a failed and retried run). -/

theorem assign_docket_numbering (db : DB) (cfg : CountryConfig)
    (items out : List Item)
    (hok : assign_document_ids db cfg items = .ok out)
    (hmax : db.maxFails = false) :
    docketAssignmentSpec db cfg out := by
  rcases assign_structure db cfg items out hok with hout |
    ⟨norm, ex, nw, sorted, hn, hc, hs, hout⟩
  · subst hout; exact docketAssignmentSpec_nil db cfg
  · subst hout
    have hexf : newItemsOf
        (ex ++ assignNew cfg.docketPre (get_max_docket_number db cfg + 1) sorted) =
        assignNew cfg.docketPre (get_max_docket_number db cfg + 1) sorted := by
      unfold newItemsOf
      rw [List.filter_append]
      have h1 : ex.filter (fun i => decide (i.is_new = some true)) = [] := by
        rw [List.filter_eq_nil_iff]
        intro a ha
        have h2 := (classifyAll_ex_spec db norm ex nw hc a ha).1
        simp [h2]
      have h2 : (assignNew cfg.docketPre (get_max_docket_number db cfg + 1)
          sorted).filter (fun i => decide (i.is_new = some true)) =
          assignNew cfg.docketPre (get_max_docket_number db cfg + 1) sorted := by
        rw [List.filter_eq_self]
        intro a ha
        simp [assignNew_is_new cfg.docketPre _ sorted a ha]
      rw [h1, h2, List.nil_append]
    refine ⟨?_, ?_, ?_, ?_⟩
    · intro i hi hnomatch
      rcases List.mem_append.mp hi with hie | hin
      · exfalso
        obtain ⟨-, r, hr, hdh⟩ := classifyAll_ex_spec db norm ex nw hc i hie
        exact hnomatch r hr hdh
      · exact assignNew_is_new _ _ _ i hin
    · rw [hexf, assignNew_length, assignNew_ids]
    · rw [hexf, assignNew_ids]
      exact ((List.nodup_range' _ _).map (fun a b hab => by
        simp only [Option.some.injEq] at hab
        exact mkDid_inj cfg.docketPre hab))
    · intro r hr hlike k hk
      have hkge := (List.mem_range'_1.mp hk).1
      have hle : rowSuffixNum cfg r ≤ get_max_docket_number db cfg := by
        rw [get_max_eq_foldr db cfg hmax]
        exact le_foldr_max
          (List.mem_map_of_mem (rowSuffixNum cfg) (List.mem_filter.mpr ⟨hr, hlike⟩))
      omega

theorem assign_docket_numbering_witness :
    (assign_document_ids c2DB c2Cfg c2Items = .ok c2Out ∧ c2DB.maxFails = false) ∧
      docketAssignmentSpec c2DB c2Cfg c2Out :=
  ⟨⟨rfl, rfl⟩, assign_docket_numbering c2DB c2Cfg c2Items c2Out rfl rfl⟩

/-- C3 (amended): a known descriptor is classified unchanged exactly when the
parsed stored publish date equals the parsed new publish date, the parsed
stored modify date equals the parsed new modify date, and at least one of
the two new dates is present; every other case is classified changed.
(A pair of absent dates on both sides does not by itself force changed.) -/

theorem classify_unchanged_rule (old : StoredRow) (it : Item) :
    (classifyExisting old it).needs_update = some false ↔
      ((dtOrNone it.publish_date).isSome = true ∨
        (dtOrNone it.modify_date).isSome = true) ∧
      dtOrNone old.publish_date = dtOrNone it.publish_date ∧
      dtOrNone old.modifyDate = dtOrNone it.modify_date := by
  have hproj : (classifyExisting old it).needs_update =
      some (needsUpdateFlag old it) := rfl
  rw [hproj, Option.some.injEq]
  unfold needsUpdateFlag
  by_cases hb : ((dtOrNone it.publish_date).isSome ||
      (dtOrNone it.modify_date).isSome) = true
  · rw [if_pos hb]
    simp only [Bool.or_eq_false_iff, decide_eq_false_iff_not, not_not]
    constructor
    · rintro ⟨ha, hc⟩
      exact ⟨(Bool.or_eq_true _ _).mp hb, ha, hc⟩
    · rintro ⟨-, ha, hc⟩
      exact ⟨ha, hc⟩
  · rw [if_neg hb]
    simp only [Bool.or_eq_true, not_or] at hb
    constructor
    · intro h
      exact absurd h (by decide)
    · rintro ⟨h1, -, -⟩
      rcases h1 with h1 | h1
      · exact absurd h1 hb.1
      · exact absurd h1 hb.2

/-- C3 (counterexample): a known descriptor whose new publish date is absent
(and whose stored publish date is NULL) while the modify dates agree is
classified unchanged (`needs_update = false`), although the claim demands
changed whenever "either the new or the stored date is absent". -/

theorem classify_unchanged_cex :
    (assign_document_ids c3DB bCfg [c3Item]).map
        (List.map (fun i => (i.is_new, i.needs_update))) =
      .ok [(some false, some false)] ∧
    c3Item.publish_date = none ∧
    c3DB.store.map StoredRow.publish_date = [none] :=
  ⟨rfl, rfl, rfl⟩

/-- C1 (divergence exhibit): when the fingerprint-lookup query fails
(`lookupFails` is true; `run_query_to_list_of_dicts` returned
`(False, None)`), the batch is not aborted: `assign_document_ids` returns
successfully and classifies the descriptor as new with a fresh docket,
although its fingerprint is present in the store. -/

theorem lookup_failure_classified_new :
    (assign_document_ids c1DB bCfg
        [{ atom_id := some "a", publish_date := some "2024-01-01" }]).map
      (List.map (fun i => (i.is_new, i.docket_id))) =
    .ok [(some true, some "BE-MD-4")] := rfl

/-- C4 (divergence exhibit): a batch with two unknown descriptors, one with
a publish date and one without, makes the new-item sort compare a
`datetime.date` with `datetime.min` and raise `TypeError`, aborting the
whole batch instead of sorting the undated descriptor first. -/

theorem mixed_batch_sort_raises :
    assign_document_ids emptyDB bCfg
      [{ atom_id := some "a", title := some "T1", url := some "u1",
         publish_date := some "2024-03-01" },
       { atom_id := some "b", title := some "T2", url := some "u2" }] =
    .error .typeError := rfl

/-- C7 (divergence exhibit): a descriptor with no origin token and no title
raises `KeyError` during fingerprinting and aborts the whole batch (the
following fingerprintable descriptor is never processed); no descriptor is
dropped and no skipped count is produced. -/

theorem missing_title_aborts_batch :
    assign_document_ids emptyDB bCfg
      [{ url := some "u" }, { atom_id := some "ok" }] =
    .error .keyError := rfl

/-- C5 (counterexample): for the store `["BE-MD-5", "BE-MD-12abc"]` the code
returns 12 (MySQL `CAST` takes the leading digits of the non-numeric suffix
`12abc`), while the maximum numeric suffix among matching identifiers is 5. -/

theorem max_docket_mixed_suffix_cex :
    get_max_docket_number c5DB bCfg = 12 ∧
    specMaxNumericSuffix c5DB bCfg = 5 ∧ (12 : Nat) ≠ 5 :=
  ⟨rfl, rfl, by decide⟩

theorem rowSuffixNum_eq_digitsVal (cfg : CountryConfig) (r : StoredRow)
    (h : allDigits (suffixChars cfg r) = true) :
    rowSuffixNum cfg r = digitsVal (suffixChars cfg r) := by
  show digitsVal (takeDigits ((suffixChars cfg r).dropWhile (fun c => c = ' '))) =
    digitsVal (suffixChars cfg r)
  rw [dropWhile_space_all_digits _ h, takeDigits_all _ h]

/-- C5 (amended): provided every stored identifier matching `{prefix}-%` for
the agency carries a purely numeric suffix, `get_max_docket_number` returns
the maximum of those numeric suffixes, and 0 when no identifier matches
(in general MySQL CAST instead contributes the leading-digit value of a
mixed suffix, see the counterexample); callers add 1 before first use. -/

theorem get_max_docket_number_spec (db : DB) (cfg : CountryConfig)
    (hmax : db.maxFails = false)
    (hnum : ∀ r ∈ db.store, likeMatch cfg r = true →
      allDigits (suffixChars cfg r) = true) :
    (∀ r ∈ db.store, likeMatch cfg r = true →
        digitsVal (suffixChars cfg r) ≤ get_max_docket_number db cfg) ∧
    (get_max_docket_number db cfg = 0 ∨
      ∃ r ∈ db.store, likeMatch cfg r = true ∧
        digitsVal (suffixChars cfg r) = get_max_docket_number db cfg) := by
  rw [get_max_eq_foldr db cfg hmax]
  constructor
  · intro r hr hlike
    rw [← rowSuffixNum_eq_digitsVal cfg r (hnum r hr hlike)]
    exact le_foldr_max
      (List.mem_map_of_mem (rowSuffixNum cfg) (List.mem_filter.mpr ⟨hr, hlike⟩))
  · rcases foldr_max_eq_zero_or_mem
        ((db.store.filter (likeMatch cfg)).map (rowSuffixNum cfg)) with h0 | hm
    · left; exact h0
    · right
      obtain ⟨r, hrf, hval⟩ := List.mem_map.mp hm
      have hr := List.mem_filter.mp hrf
      refine ⟨r, hr.1, hr.2, ?_⟩
      rw [← rowSuffixNum_eq_digitsVal cfg r (hnum r hr.1 hr.2)]
      exact hval

theorem get_max_docket_number_spec_witness :
    (c5wDB.maxFails = false ∧
      (∀ r ∈ c5wDB.store, likeMatch bCfg r = true →
        allDigits (suffixChars bCfg r) = true)) ∧
    ((∀ r ∈ c5wDB.store, likeMatch bCfg r = true →
        digitsVal (suffixChars bCfg r) ≤ get_max_docket_number c5wDB bCfg) ∧
      (get_max_docket_number c5wDB bCfg = 0 ∨
        ∃ r ∈ c5wDB.store, likeMatch bCfg r = true ∧
          digitsVal (suffixChars bCfg r) = get_max_docket_number c5wDB bCfg)) ∧
    get_max_docket_number c5wDB bCfg = 7 ∧
    get_max_docket_number emptyDB bCfg = 0 :=
  ⟨⟨rfl, by decide⟩, get_max_docket_number_spec c5wDB bCfg rfl (by decide), rfl, rfl⟩

/-! ## C6: fingerprint determinism and origin-token dependence -/

/-- C6: fingerprinting is a pure function of the descriptor (the same
descriptor yields the same digest every run), and when the origin token
(`atom_id`) is present and non-empty, the digest is `md5(atom_id)` --
independent of the title or any other field, so two descriptors sharing a
token fingerprint identically. -/

theorem fingerprint_deterministic_and_token_based :
    (∀ it o1 o2, normalizeItem it = .ok o1 → normalizeItem it = .ok o2 →
      o1.doc_hash = o2.doc_hash) ∧
    (∀ it1 it2 t o1 o2, t ≠ "" → it1.atom_id = some t → it2.atom_id = some t →
      normalizeItem it1 = .ok o1 → normalizeItem it2 = .ok o2 →
      o1.doc_hash = o2.doc_hash ∧ o1.doc_hash = some (md5Hex t)) := by
  constructor
  · intro it o1 o2 h1 h2
    rw [h1] at h2
    injection h2 with h3
    rw [h3]
  · intro it1 it2 t o1 o2 ht ha1 ha2 h1 h2
    have hh1 : hashInputOf it1 = .ok t := by
      unfold hashInputOf
      rw [ha1]
      simp [ht]
    have hh2 : hashInputOf it2 = .ok t := by
      unfold hashInputOf
      rw [ha2]
      simp [ht]
    unfold normalizeItem at h1 h2
    rw [hh1] at h1
    rw [hh2] at h2
    injection h1 with h1
    injection h2 with h2
    rw [← h1, ← h2]
    exact ⟨rfl, rfl⟩

theorem fingerprint_deterministic_witness :
    (("https://x/doc.pdf" : String) ≠ "" ∧
      c6It1.atom_id = some "https://x/doc.pdf" ∧
      c6It2.atom_id = some "https://x/doc.pdf" ∧
      c6It1.title ≠ c6It2.title ∧
      normalizeItem c6It1 = .ok c6O1 ∧ normalizeItem c6It2 = .ok c6O2) ∧
    (c6O1.doc_hash = c6O2.doc_hash ∧
      c6O1.doc_hash = some (md5Hex "https://x/doc.pdf")) :=
  ⟨⟨by decide, rfl, rfl, by decide, rfl, rfl⟩,
    fingerprint_deterministic_and_token_based.2 c6It1 c6It2 "https://x/doc.pdf"
      c6O1 c6O2 (by decide) rfl rfl rfl rfl⟩

/-- C8 (counterexample): the code's `clean_title` does not collapse internal
whitespace, so for the title `"a  b"` (no origin token) the fingerprint is
the digest of `"a  bu"`, not of the whitespace-collapsed `"a bu"` the claim
describes, and the two digests differ. -/

theorem title_collapse_cex :
    clean_title "a  b" = "a  b" ∧
    specNormalizeTitle "a  b" = "a b" ∧
    hashInputOf { title := some "a  b", url := some "u" } = .ok "a  bu" ∧
    md5Hex "a  bu" ≠ md5Hex (specNormalizeTitle "a  b" ++ "u") :=
  ⟨rfl, rfl, rfl, by decide⟩

theorem prepare_records_ok_spec (cfg : CountryConfig) (now : String) :
    ∀ items recs, prepare_records cfg now items = .ok recs →
      List.Forall₂ recordMatches recs (items.filter taggedB) := by
  intro items
  induction items with
  | nil =>
    intro recs h
    have h2 : Except.ok (ε := PyError) ([] : List DBRecord) = Except.ok recs := h
    injection h2 with h3
    rw [← h3]
    exact List.Forall₂.nil
  | cons it rest ih =>
    intro recs h
    unfold prepare_records at h
    by_cases ht : taggedB it
    · rw [if_neg (by simp [ht])] at h
      split at h
      · rename_i did dh t u fmt ak s3 hdid hdh2 ht2 hu2 hfmt hak hs3
        cases hr : prepare_records cfg now rest with
        | error e =>
          rw [hr] at h
          cases h
        | ok rs =>
          rw [hr] at h
          injection h with h2
          rw [← h2, List.filter_cons_of_pos (by simp [ht])]
          refine List.Forall₂.cons ?_ (ih rs hr)
          exact ⟨hdid, hdh2, ⟨t, ht2, rfl⟩, hu2, rfl, rfl⟩
      · cases h
    · rw [if_pos (by simp [ht])] at h
      cases hdid : it.doc_id with
      | none => rw [hdid] at h; cases h
      | some d =>
        rw [hdid] at h
        rw [List.filter_cons_of_neg (by simp [ht])]
        exact ih recs h

/-- C8 (amended): when the origin token is absent or empty, the fingerprint
input is `clean_title(title) ++ url`, where `clean_title` removes the
characters `<>:"/\|?*` and strips surrounding (not internal) whitespace;
and the very same `clean_title` is what `prepare_records` stores as the
record title, for every prepared record. -/

theorem title_normalization_consistency (it : Item) (t u : String)
    (hatom : it.atom_id = none ∨ it.atom_id = some "")
    (ht : it.title = some t) (hu : it.url = some u) :
    hashInputOf it = .ok (clean_title t ++ u) ∧
    (∀ cfg now items recs, prepare_records cfg now items = .ok recs →
      ∀ r ∈ recs, ∃ i ∈ items, ∃ s, i.title = some s ∧ r.title = clean_title s) := by
  constructor
  · unfold hashInputOf
    rcases hatom with ha | ha
    · rw [ha, ht, hu]
    · rw [ha, ht, hu]
      simp
  · intro cfg now items recs h r hr
    have hsp := prepare_records_ok_spec cfg now items recs h
    obtain ⟨i, hi, hm⟩ := forall₂_mem_left hsp hr
    exact ⟨i, List.mem_of_mem_filter hi, hm.2.2.1⟩

theorem title_normalization_witness :
    ((c8It.atom_id = none ∨ c8It.atom_id = some "") ∧
      c8It.title = some " My  Doc? " ∧ c8It.url = some "u") ∧
    (hashInputOf c8It = .ok (clean_title " My  Doc? " ++ "u") ∧
      (∀ cfg now items recs, prepare_records cfg now items = .ok recs →
        ∀ r ∈ recs, ∃ i ∈ items, ∃ s, i.title = some s ∧ r.title = clean_title s)) :=
  ⟨⟨Or.inl rfl, rfl, rfl⟩,
    title_normalization_consistency c8It " My  Doc? " "u" (Or.inl rfl) rfl rfl⟩

/-- C9: a malformed (unparseable) date string is handled exactly like an
absent date and never raises: for the publish date the whole normalization
result agrees up to the retained raw text, and so does the classification;
a malformed modify date gives literally the same result as an absent one;
an absent modify date defaults to the publish date before any comparison;
and dates are compared as parsed calendar dates, not as strings (equal
dates written differently still compare equal). -/

theorem pubObjOf_set_modify (it : Item) (x : Option String) :
    pubObjOf { it with modify_date := x } = pubObjOf it := rfl

theorem malformed_dates_as_absent :
    (∀ (it : Item) (s : String), parseDate s = none →
      (normalizeItem { it with publish_date := some s }).map eraseRawPub =
      (normalizeItem { it with publish_date := none }).map eraseRawPub) ∧
    (∀ (old : StoredRow) (it : Item) (s : String), parseDate s = none →
      (classifyExisting old { it with publish_date := some s }).needs_update =
      (classifyExisting old { it with publish_date := none }).needs_update) ∧
    (∀ (it : Item) (s : String), parseDate s = none →
      normalizeItem { it with modify_date := some s } =
      normalizeItem { it with modify_date := none }) ∧
    (∀ (it : Item) (p : String) (o : Item),
      it.modify_date = none → it.publish_date = some p →
      normalizeItem it = .ok o → o.modify_date = (parseDate p).map fmtDate) ∧
    ((classifyExisting
        ⟨"D-1", "D-1-1", some "2024-1-5", some "2024-1-5", "h", 1⟩
        { publish_date := some "2024-01-05",
          modify_date := some "2024-01-05" }).needs_update = some false ∧
      ("2024-1-5" : String) ≠ "2024-01-05") := by
  refine ⟨?_, ?_, ?_, ?_, by decide, by decide⟩
  · intro it s hps
    have hh : hashInputOf { it with publish_date := some s } =
        hashInputOf { it with publish_date := none } := rfl
    have hpo : pubObjOf { it with publish_date := some s } =
        pubObjOf { it with publish_date := none } := by
      simp [pubObjOf, hps]
    have hmo : modObjOf { it with publish_date := some s } =
        modObjOf { it with publish_date := none } := by
      unfold modObjOf mod0Of
      cases hm : it.modify_date with
      | none => simp [hm, hps, pubObjOf]
      | some m =>
        by_cases hme : m = ""
        · simp [hm, hme, hps, pubObjOf]
        · cases hpm : parseDate m with
          | none => simp [hm, hme, hpm, pubObjOf, hps]
          | some d => simp [hm, hme, hpm]
    unfold normalizeItem
    rw [hh]
    cases hhi : hashInputOf { it with publish_date := none } with
    | error e => rfl
    | ok hi => simp [Except.map, eraseRawPub, hpo, hmo]
  · intro old it s hps
    have hd : dtOrNone ({ it with publish_date := some s } : Item).publish_date =
        dtOrNone ({ it with publish_date := none } : Item).publish_date := by
      by_cases hse : s = "" <;> simp [dtOrNone, hse, hps]
    show some (needsUpdateFlag old _) = some (needsUpdateFlag old _)
    unfold needsUpdateFlag
    rw [hd]
  · intro it s hps
    have hh : hashInputOf { it with modify_date := some s } =
        hashInputOf { it with modify_date := none } := rfl
    have hpo : pubObjOf { it with modify_date := some s } =
        pubObjOf { it with modify_date := none } := rfl
    have hmo : modObjOf { it with modify_date := some s } =
        modObjOf { it with modify_date := none } := by
      unfold modObjOf mod0Of
      by_cases hse : s = ""
      · simp [hse, pubObjOf_set_modify]
      · cases hp : it.publish_date with
        | none => simp [hse, hps, hp, pubObjOf_set_modify, pubObjOf]
        | some p =>
          cases hpp : parseDate p with
          | none => simp [hse, hps, hp, hpp, pubObjOf_set_modify, pubObjOf]
          | some d => simp [hse, hps, hp, hpp, pubObjOf_set_modify, pubObjOf]
    unfold normalizeItem
    rw [hh]
    cases hhi : hashInputOf { it with modify_date := none } with
    | error e => rfl
    | ok hi => simp [hpo, hmo]
  · intro it p o hmd hpd hok
    unfold normalizeItem at hok
    cases hhi : hashInputOf it with
    | error e => rw [hhi] at hok; cases hok
    | ok hi =>
      rw [hhi] at hok
      injection hok with h2
      rw [← h2]
      show (modObjOf it).map fmtDate = (parseDate p).map fmtDate
      unfold modObjOf mod0Of
      rw [hmd, hpd]
      cases hpp : parseDate p with
      | none => simp [pubObjOf, hpd, hpp]
      | some d => simp [hpp]

theorem malformed_dates_witness :
    parseDate "garbage" = none ∧
    (normalizeItem { c9It with publish_date := some "garbage" }).map eraseRawPub =
      (normalizeItem { c9It with publish_date := none }).map eraseRawPub :=
  ⟨rfl, malformed_dates_as_absent.1 c9It "garbage" rfl⟩

/-! ## C10: record preparation filters unchanged items -/

/-- C10: `prepare_records` succeeds exactly on the new-or-changed items: the
returned records correspond one-to-one (in order) with the items whose
`is_new` or `needs_update` flag is truthy, each record carrying that item's
identifiers, fingerprint, sanitized title and dates; in particular the
record count equals the tagged-item count, so unchanged items produce no
record for the sink. -/

theorem prepare_records_filters_unchanged (cfg : CountryConfig) (now : String)
    (items : List Item) (recs : List DBRecord)
    (h : prepare_records cfg now items = .ok recs) :
    List.Forall₂ recordMatches recs (items.filter taggedB) ∧
    recs.length = (items.filter taggedB).length :=
  ⟨prepare_records_ok_spec cfg now items recs h,
    (prepare_records_ok_spec cfg now items recs h).length_eq⟩

theorem prepare_records_filters_witness :
    (prepare_records bCfg "2026-10-12" [c10i1, c10i2, c10i3] = .ok c10recs) ∧
    (List.Forall₂ recordMatches c10recs ([c10i1, c10i2, c10i3].filter taggedB) ∧
      c10recs.length = ([c10i1, c10i2, c10i3].filter taggedB).length) ∧
    c10recs.length = 2 :=
  ⟨rfl, prepare_records_filters_unchanged bCfg "2026-10-12" _ _ rfl, rfl⟩

end Pipeline
